import Mathlib

/-!
# simpleyaml: navigation and typed extraction over a parsed YAML tree

A shallow embedding of `simpleyaml.go`.  The Go type `interface{}` is rendered
as the inductive type `Value` of the dynamic values a parsed tree can hold, the
struct `Yaml` as a one-field structure, a Go `(T, error)` result as a pair whose
second component is `none` for the nil error, and a run-time panic as the
`error` side of `Except Panic`.
-/

set_option autoImplicit false

namespace simpleyaml

/-! ## Go values -/

/-- Dynamic values of Go type `interface{}` as they occur in a parsed tree.
`nil` is the nil interface value, which is both the payload of `&Yaml{nil}` and
what the parser stores for a YAML null.  `array none` is the nil `[]interface{}`, `map none` the nil
`map[interface{}]interface{}`; `mapSlice` is a `yaml.MapSlice`, the ordered
list of `MapItem{Key, Value}`; `float` carries the bit pattern of a `float64`;
`other` stands for a value of any further dynamic type, named by `typ`. -/
inductive Value where
  | nil
  | str (s : String)
  | int (n : Int)
  | bool (b : Bool)
  | float (bits : Nat)
  | array (a : Option (List Value))
  | map (m : Option (List (Value × Value)))
  | mapSlice (items : List (Value × Value))
  | other (typ : String)

instance : Inhabited Value := ⟨Value.nil⟩

/-- Go `string`. -/
abbrev GoString := String

/-- Go `int`; no arithmetic is done on it, only comparison with a length. -/
abbrev GoInt := Int

/-- Go `bool`. -/
abbrev GoBool := Bool

/-- Go `[]interface{}`: `none` is the nil slice. -/
abbrev GoSlice := Option (List Value)

/-- Go `map[interface{}]interface{}` as its entries: `none` is the nil map. -/
abbrev GoMap := Option (List (Value × Value))

/-- Go `error`: `none` is the nil error, `some msg` the error `errors.New(msg)`. -/
abbrev GoError := Option String

/-- Run-time panics of the Go primitives used by the package. -/
inductive Panic where
  | indexOutOfRange (index : Int) (length : Nat)
  deriving DecidableEq, Repr

/-- Go `len(a)` on a slice. -/
def len (a : GoSlice) : Nat :=
  match a with
  | none => 0
  | some xs => xs.length

/-- Go `a[index]` on a slice: panics unless `0 <= index < len(a)`. -/
def sliceIndex (a : GoSlice) (index : GoInt) : Except Panic Value :=
  if 0 ≤ index ∧ index < (len a : Int) then
    match a with
    | some xs => Except.ok (xs.getD index.toNat Value.nil)
    | none => Except.error (Panic.indexOutOfRange index (len a))
  else
    Except.error (Panic.indexOutOfRange index (len a))

/-- Search of the entries of a map for the key `interface{}(key)`, `key` a
string: an entry matches when its key has dynamic type `string` and the same
contents. -/
def lookupStr : List (Value × Value) → String → Option Value
  | [], _ => none
  | (Value.str s, v) :: rest, key => if s = key then some v else lookupStr rest key
  | (_, _) :: rest, key => lookupStr rest key

/-- Go `val, ok := m[key]` for a string `key`: the zero value and `false` when
the map is nil or has no such entry. -/
def mapaccess (m : GoMap) (key : String) : Value × Bool :=
  match m with
  | none => (Value.nil, false)
  | some entries =>
    match lookupStr entries key with
    | some v => (v, true)
    | none => (Value.nil, false)

/-! ## The package -/

/-- Go `type Yaml struct { data interface{} }`; a Node is a non-nil `*Yaml`. -/
structure Yaml where
  data : Value

instance : Inhabited Yaml := ⟨⟨Value.nil⟩⟩

/-- Constructor `NewYaml`: `unmarshal` is the external `yaml.Unmarshal` run on a
`yaml.MapSlice` target, returning the filled target or the parser's error
message.  The result is the Go pair `(*Yaml, error)`, `none` the nil pointer. -/
def NewYaml (unmarshal : List Nat → Except String (List (Value × Value)))
    (body : List Nat) : Option Yaml × GoError :=
  match unmarshal body with
  | Except.error msg => (none, some ("unmarshal []byte to yaml failed: " ++ msg))
  | Except.ok val => (some ⟨Value.mapSlice val⟩, none)

/-- Method `Map` type asserts to `map[interface{}]interface{}`. -/
def Yaml.Map (y : Yaml) : GoMap × GoError :=
  match y.data with
  | Value.map m => (m, none)
  | _ => (none, some "type assertion to map[interface]interface\x7b\x7d failed")

/-- Method `Array` type asserts to `[]interface{}`. -/
def Yaml.Array (y : Yaml) : GoSlice × GoError :=
  match y.data with
  | Value.array a => (a, none)
  | _ => (none, some "type assertion to []interface\x7b\x7d failed")

/-- Method `Get` returns the Node for `key` in the map representation. -/
def Yaml.Get (y : Yaml) (key : String) : Yaml :=
  match y.Map with
  | (m, none) =>
    match mapaccess m key with
    | (val, true) => ⟨val⟩
    | (_, false) => ⟨Value.nil⟩
  | (_, some _) => ⟨Value.nil⟩

/-- Method `GetPath`: the loop `yin := y; for _, p := range branch { yin = yin.Get(p) }`. -/
def Yaml.GetPath (y : Yaml) (branch : List String) : Yaml :=
  match branch with
  | [] => y
  | p :: rest => Yaml.GetPath (y.Get p) rest

/-- Method `GetIndex` returns the Node for `index` in the array representation; the
element access `a[index]` is the one place that can panic. -/
def Yaml.GetIndex (y : Yaml) (index : GoInt) : Except Panic Yaml :=
  match y.Array with
  | (a, none) =>
    if (len a : Int) > index then
      match sliceIndex a index with
      | Except.ok v => Except.ok ⟨v⟩
      | Except.error p => Except.error p
    else
      Except.ok ⟨Value.nil⟩
  | (_, some _) => Except.ok ⟨Value.nil⟩

/-- Method `Int` type asserts to `int`. -/
def Yaml.Int (y : Yaml) : GoInt × GoError :=
  match y.data with
  | Value.int v => (v, none)
  | _ => (0, some "type assertion to int failed")

/-- Method `Bool` type asserts to `bool`. -/
def Yaml.Bool (y : Yaml) : GoBool × GoError :=
  match y.data with
  | Value.bool v => (v, none)
  | _ => (false, some "type assertion to bool failed")

/-- Method `String` type asserts to `string`. -/
def Yaml.String (y : Yaml) : GoString × GoError :=
  match y.data with
  | Value.str v => (v, none)
  | _ => ("", some "type assertion to string failed")

/-! ## Documents of the package documentation -/

/-- The sentinel empty Node `&Yaml{nil}`. -/
def sentinel : Yaml := ⟨Value.nil⟩

/-- The `yaml.MapSlice` for `name: smallfish`, `age: 99`, `bool: true`. -/
def docFlat : List (Value × Value) :=
  [(Value.str "name", Value.str "smallfish"),
   (Value.str "age", Value.int 99),
   (Value.str "bool", Value.bool true)]

/-- The `yaml.MapSlice` for the nested document `bb: cc: dd: [111, 222, 333]`;
nested mappings have the type of the target, `yaml.MapSlice`. -/
def docNested : List (Value × Value) :=
  [(Value.str "bb", Value.mapSlice
    [(Value.str "cc", Value.mapSlice
      [(Value.str "dd",
        Value.array (some [Value.int 111, Value.int 222, Value.int 333]))])])]

/-- A parser that yields `items` on every input. -/
def parserOf (items : List (Value × Value)) : List Nat → Except String (List (Value × Value)) :=
  fun _ => Except.ok items

/-! ## Mappings as the specification speaks of them -/

/-- The entries of the mapping a value is, when it is one: a
`map[interface{}]interface{}` (the nil map has none) or a `yaml.MapSlice`. -/
def Value.entries (v : Value) : Option (List (Value × Value)) :=
  match v with
  | Value.map (some m) => some m
  | Value.map none => some []
  | Value.mapSlice items => some items
  | _ => none

/-- The value `v` is a mapping with an entry for the string key `k`. -/
def Value.hasKey (v : Value) (k : String) : Prop :=
  ∃ es x, v.entries = some es ∧ (Value.str k, x) ∈ es

/-- No two entries carry the same string key (keys of a mapping are unique). -/
def uniqueStrKeys (es : List (Value × Value)) : Prop :=
  es.Pairwise (fun e1 e2 => ∀ s, e1.1 = Value.str s → e2.1 ≠ Value.str s)

/-- The fold of the specification: `Get` applied along `ks`, left to right,
each step's output the next step's input. -/
def foldGet (y : Yaml) (ks : List String) : Yaml :=
  List.foldl (fun node k => node.Get k) y ks

/-! ## Lemmas on the primitives -/

theorem lookupStr_none_of_not_mem (es : List (Value × Value)) (k : String)
    (h : ∀ x, (Value.str k, x) ∉ es) : lookupStr es k = none := by
  induction es with
  | nil => rfl
  | cons e rest ih =>
    obtain ⟨key, v⟩ := e
    have hrest : ∀ x, (Value.str k, x) ∉ rest := fun x hx =>
      h x (List.mem_cons_of_mem _ hx)
    cases key with
    | str s =>
      by_cases hs : s = k
      · exact absurd (by simp [hs]) (h v)
      · simp [lookupStr, hs, ih hrest]
    | _ => simp [lookupStr, ih hrest]

theorem lookupStr_of_mem (es : List (Value × Value)) (k : String) (v : Value)
    (hu : uniqueStrKeys es) (h : (Value.str k, v) ∈ es) : lookupStr es k = some v := by
  induction es with
  | nil => simp at h
  | cons e rest ih =>
    obtain ⟨key, w⟩ := e
    rw [uniqueStrKeys, List.pairwise_cons] at hu
    rcases List.mem_cons.mp h with heq | hmem
    · cases heq
      simp [lookupStr]
    · cases key with
      | str s =>
        by_cases hs : s = k
        · exact absurd (congrArg Value.str hs.symm) (hu.1 (Value.str k, v) hmem s rfl)
        · simp [lookupStr, hs, ih hu.2 hmem]
      | _ => simp [lookupStr, ih hu.2 hmem]

theorem lookupStr_mem (es : List (Value × Value)) (k : String) (v : Value)
    (h : lookupStr es k = some v) : (Value.str k, v) ∈ es := by
  induction es with
  | nil => simp [lookupStr] at h
  | cons e rest ih =>
    obtain ⟨key, w⟩ := e
    cases key with
    | str s =>
      by_cases hs : s = k
      · simp [lookupStr, hs] at h
        simp [hs, h]
      · simp [lookupStr, hs] at h
        exact List.mem_cons_of_mem _ (ih h)
    | _ =>
      simp [lookupStr] at h
      exact List.mem_cons_of_mem _ (ih h)

/-! ## Lemmas on `Get` and `GetPath` -/

theorem Get_map_some (m : List (Value × Value)) (k : String) :
    (Yaml.mk (Value.map (some m))).Get k
      = match lookupStr m k with
        | some v => ⟨v⟩
        | none => sentinel := by
  cases h : lookupStr m k <;> simp [Yaml.Get, Yaml.Map, mapaccess, h, sentinel]

theorem Get_of_not_map (y : Yaml) (k : String)
    (h : ∀ m, y.data ≠ Value.map (some m)) : y.Get k = sentinel := by
  obtain ⟨d⟩ := y
  cases d with
  | map m =>
    cases m with
    | none => simp [Yaml.Get, Yaml.Map, mapaccess, sentinel]
    | some es => exact absurd rfl (h es)
  | _ => simp [Yaml.Get, Yaml.Map, sentinel]

/-- Keyed descent into a Go map with unique keys reaches the entry's value. -/
theorem Get_map_of_mem (m : List (Value × Value)) (k : String) (v : Value)
    (hu : uniqueStrKeys m) (h : (Value.str k, v) ∈ m) :
    (Yaml.mk (Value.map (some m))).Get k = ⟨v⟩ := by
  rw [Get_map_some, lookupStr_of_mem m k v hu h]

/-- Keyed descent yields the sentinel unless the Node wraps a mapping with the key. -/
theorem Get_of_not_hasKey (y : Yaml) (k : String) (h : ¬ y.data.hasKey k) :
    y.Get k = sentinel := by
  by_cases hm : ∃ m, y.data = Value.map (some m)
  · obtain ⟨m, hm⟩ := hm
    obtain ⟨d⟩ := y
    simp only at hm
    subst hm
    rw [Get_map_some]
    cases hl : lookupStr m k with
    | none => rfl
    | some v =>
      exact absurd ⟨m, v, rfl, lookupStr_mem m k v hl⟩ h
  · exact Get_of_not_map y k (fun m hm' => hm ⟨m, hm'⟩)

theorem Get_sentinel (k : String) : sentinel.Get k = sentinel := rfl

theorem GetPath_sentinel (ks : List String) : sentinel.GetPath ks = sentinel := by
  induction ks with
  | nil => rfl
  | cons k rest ih => simpa [Yaml.GetPath, Get_sentinel] using ih

theorem GetPath_append (y : Yaml) (p q : List String) :
    y.GetPath (p ++ q) = (y.GetPath p).GetPath q := by
  induction p generalizing y with
  | nil => rfl
  | cons k rest ih => simpa [Yaml.GetPath] using ih (y.Get k)

theorem GetIndex_sentinel (i : GoInt) : sentinel.GetIndex i = Except.ok sentinel := rfl

/-- Keyed descent on a Node wrapping a `yaml.MapSlice` always misses: `Map`
asserts `map[interface{}]interface{}`, which a `yaml.MapSlice` is not. -/
theorem Get_mapSlice (items : List (Value × Value)) (k : String) :
    (Yaml.mk (Value.mapSlice items)).Get k = sentinel := rfl

theorem uniqueStrKeys_docFlat : uniqueStrKeys docFlat := by
  simp [uniqueStrKeys, docFlat]

/-! ## Construction and keyed descent -/

/-- C1, evaluated on the documented examples: whenever the parser succeeds
`NewYaml` wraps the `yaml.MapSlice` it filled, and `Get` on such a Node is the
sentinel for every key, so on the root of `name: smallfish, age: 99, bool: true` the
calls `Get("name").String()`, `Get("age").Int()` and `Get("bool").Bool()` return
the zero value with an error, not `smallfish`, `99` and `true`; and on the
nested document `GetPath("bb","cc","dd").GetIndex(1)` is the sentinel, whose
`Int()` is `(0, error)`, not `(222, nil)`. -/
theorem newYaml_documented_paths_miss :
    (∀ (unmarshal : List Nat → Except String (List (Value × Value))) (body : List Nat)
      (items : List (Value × Value)), unmarshal body = Except.ok items →
      NewYaml unmarshal body = (some ⟨Value.mapSlice items⟩, none)) ∧
    (∀ (items : List (Value × Value)) (k : String),
      (Yaml.mk (Value.mapSlice items)).Get k = sentinel) ∧
    NewYaml (parserOf docFlat) [] = (some ⟨Value.mapSlice docFlat⟩, none) ∧
    ((Yaml.mk (Value.mapSlice docFlat)).Get "name").String
      = ("", some "type assertion to string failed") ∧
    ((Yaml.mk (Value.mapSlice docFlat)).Get "age").Int
      = (0, some "type assertion to int failed") ∧
    ((Yaml.mk (Value.mapSlice docFlat)).Get "bool").Bool
      = (false, some "type assertion to bool failed") ∧
    NewYaml (parserOf docNested) [] = (some ⟨Value.mapSlice docNested⟩, none) ∧
    ((Yaml.mk (Value.mapSlice docNested)).GetPath ["bb", "cc", "dd"]).GetIndex 1
      = Except.ok sentinel ∧
    sentinel.Int = (0, some "type assertion to int failed") := by
  refine ⟨?_, Get_mapSlice, rfl, rfl, rfl, rfl, rfl, rfl, rfl⟩
  intro unmarshal body items h
  simp [NewYaml, h]

/-- C2, evaluated on a Node wrapping a `yaml.MapSlice`: the mapping
`name: smallfish, age: 99, bool: true` has unique keys and contains the key
`name` with value `smallfish`, yet `Get("name")` returns the sentinel, whose
wrapped value is nil.  On a Node wrapping a `map[interface{}]interface{}` with
unique keys `Get(k)` does wrap the value of the entry for `k`. -/
theorem get_present_key_mapSlice_misses :
    (∀ (m : List (Value × Value)) (k : String) (v : Value), uniqueStrKeys m →
      (Value.str k, v) ∈ m → (Yaml.mk (Value.map (some m))).Get k = ⟨v⟩) ∧
    uniqueStrKeys docFlat ∧
    (Value.mapSlice docFlat).entries = some docFlat ∧
    (Value.str "name", Value.str "smallfish") ∈ docFlat ∧
    (Yaml.mk (Value.mapSlice docFlat)).Get "name" = ⟨Value.nil⟩ := by
  refine ⟨Get_map_of_mem, uniqueStrKeys_docFlat, rfl, ?_, rfl⟩
  simp [docFlat]

/-- C3: when the internal `Map()` test fails, or the Node wraps no mapping (a
scalar, a sequence, nil), or it wraps a mapping with no entry for the string key
`k`, `Get(k)` returns the sentinel empty Node, whose wrapped value is nil; `Get`
has no error result and no step that can panic. -/
theorem get_miss_is_sentinel (y : Yaml) (k : String)
    (h : y.Map.2 ≠ none ∨ y.data.entries = none ∨
      ∃ es, y.data.entries = some es ∧ ∀ x, (Value.str k, x) ∉ es) :
    y.Get k = sentinel ∧ (y.Get k).data = Value.nil := by
  have hget : y.Get k = sentinel := by
    rcases h with hmap | hnone | ⟨es, hes, hmem⟩
    · apply Get_of_not_map
      intro m hm
      simp [Yaml.Map, hm] at hmap
    · apply Get_of_not_hasKey
      rintro ⟨es, x, hes, -⟩
      rw [hnone] at hes
      cases hes
    · apply Get_of_not_hasKey
      rintro ⟨es2, x, hes2, hx⟩
      rw [hes] at hes2
      cases hes2
      exact hmem x hx
  exact ⟨hget, by rw [hget]; rfl⟩

/-- C3 at concrete Nodes: an integer, a sequence, the sentinel, a
`yaml.MapSlice`, and a map without the key. -/
theorem get_miss_is_sentinel_witness :
    (Yaml.mk (Value.int 99)).Get "age" = sentinel ∧
    (Yaml.mk (Value.array (some [Value.int 1]))).Get "age" = sentinel ∧
    sentinel.Get "age" = sentinel ∧
    (Yaml.mk (Value.mapSlice docFlat)).Get "age" = sentinel ∧
    (Yaml.mk (Value.map (some docFlat))).Get "ee" = sentinel :=
  ⟨(get_miss_is_sentinel ⟨Value.int 99⟩ "age" (Or.inr (Or.inl rfl))).1,
   (get_miss_is_sentinel ⟨Value.array (some [Value.int 1])⟩ "age" (Or.inr (Or.inl rfl))).1,
   (get_miss_is_sentinel sentinel "age" (Or.inl (by simp [Yaml.Map, sentinel]))).1,
   (get_miss_is_sentinel ⟨Value.mapSlice docFlat⟩ "age" (Or.inl (by simp [Yaml.Map]))).1,
   (get_miss_is_sentinel ⟨Value.map (some docFlat)⟩ "ee"
      (Or.inr (Or.inr ⟨docFlat, rfl, by simp [docFlat]⟩))).1⟩

/-- C4: `GetPath` over a list of keys is the left fold of `Get` over that list
starting at the Node, and over the empty list it is the Node itself. -/
theorem getPath_eq_foldGet (y : Yaml) (ks : List String) :
    y.GetPath ks = foldGet y ks ∧ y.GetPath [] = y := by
  refine ⟨?_, rfl⟩
  induction ks generalizing y with
  | nil => rfl
  | cons k rest ih => simpa [Yaml.GetPath, foldGet] using ih (y.Get k)

/-- C5: if the Node reached by `pre` is not a mapping containing `k`, then
`GetPath` along `pre ++ [k] ++ post` is the sentinel empty Node for every `post`,
and every further `Get` and `GetIndex` on it yields the sentinel again. -/
theorem getPath_stays_at_sentinel (y : Yaml) (pre post : List String) (k : String)
    (h : ¬ (y.GetPath pre).data.hasKey k) :
    y.GetPath (pre ++ [k] ++ post) = sentinel ∧
    (∀ k2, (y.GetPath (pre ++ [k] ++ post)).Get k2 = sentinel) ∧
    (∀ i, (y.GetPath (pre ++ [k] ++ post)).GetIndex i = Except.ok sentinel) := by
  have hstep : (y.GetPath pre).Get k = sentinel := Get_of_not_hasKey _ k h
  have hpath : y.GetPath (pre ++ [k] ++ post) = sentinel := by
    rw [GetPath_append, GetPath_append]
    simp only [Yaml.GetPath, hstep]
    exact GetPath_sentinel post
  rw [hpath]
  exact ⟨rfl, Get_sentinel, GetIndex_sentinel⟩

/-- C5 on the nested document: the path `bb`, `cc`, `ee` ends at the sentinel
and `String()` on it returns the empty string with an error. -/
theorem getPath_stays_at_sentinel_witness :
    (Yaml.mk (Value.mapSlice docNested)).GetPath (["bb", "cc"] ++ ["ee"] ++ []) = sentinel ∧
    ((Yaml.mk (Value.mapSlice docNested)).GetPath ["bb", "cc", "ee"]).String
      = ("", some "type assertion to string failed") :=
  ⟨(getPath_stays_at_sentinel ⟨Value.mapSlice docNested⟩ ["bb", "cc"] [] "ee"
      (by rintro ⟨es, x, hes, -⟩; cases hes)).1, rfl⟩

/-! ## Indexed descent -/

theorem GetIndex_neg (a : GoSlice) (i : Int) (h : i < 0) :
    (Yaml.mk (Value.array a)).GetIndex i = Except.error (Panic.indexOutOfRange i (len a)) := by
  have h1 : (len a : Int) > i := by omega
  have h3 : ¬ (0 ≤ i) := by omega
  simp [Yaml.GetIndex, Yaml.Array, sliceIndex, h1, h3]

/-- C6, evaluated at index `-1` on the sequence `[111, 222, 333]`: the guard
`len(a) > index` holds, the element access `a[-1]` panics with an index out of
range, and no Node is returned.  The same happens at every negative index on
every Node wrapping a sequence. -/
theorem getIndex_negative_panics :
    (Yaml.mk (Value.array (some [Value.int 111, Value.int 222, Value.int 333]))).GetIndex (-1)
      = Except.error (Panic.indexOutOfRange (-1) 3) ∧
    (∀ (a : GoSlice) (i : Int), i < 0 →
      (Yaml.mk (Value.array a)).GetIndex i = Except.error (Panic.indexOutOfRange i (len a))) :=
  ⟨GetIndex_neg _ (-1) (by decide), GetIndex_neg⟩

/-- C7: on a Node wrapping the sequence `xs`, `GetIndex(i)` with
`0 <= i < len(xs)` returns without panic a Node wrapping the element of `xs` at
position `i`. -/
theorem getIndex_in_range (xs : List Value) (i : Int) (h0 : 0 ≤ i)
    (hlt : i < (xs.length : Int)) :
    ∃ h : i.toNat < xs.length,
      (Yaml.mk (Value.array (some xs))).GetIndex i = Except.ok ⟨xs.get ⟨i.toNat, h⟩⟩ := by
  have h : i.toNat < xs.length := by omega
  refine ⟨h, ?_⟩
  have h1 : (xs.length : Int) > i := hlt
  simp [Yaml.GetIndex, Yaml.Array, sliceIndex, len, h0, hlt, List.getD_eq_getElem?_getD,
    List.getElem?_eq_getElem h]

/-- C7 on the sequence `[111, 222, 333]`: index `1` reaches `222`, index `0`
reaches `111`. -/
theorem getIndex_in_range_witness :
    (Yaml.mk (Value.array (some [Value.int 111, Value.int 222, Value.int 333]))).GetIndex 1
      = Except.ok ⟨Value.int 222⟩ ∧
    (Yaml.mk (Value.array (some [Value.int 111, Value.int 222, Value.int 333]))).GetIndex 0
      = Except.ok ⟨Value.int 111⟩ := by
  obtain ⟨_, h1⟩ := getIndex_in_range [Value.int 111, Value.int 222, Value.int 333] 1
    (by decide) (by decide)
  obtain ⟨_, h0⟩ := getIndex_in_range [Value.int 111, Value.int 222, Value.int 333] 0
    (by decide) (by decide)
  exact ⟨h1, h0⟩

/-- Indexed descent with an index at or past the length, or on a Node that
wraps no sequence, returns the sentinel empty Node without panic. -/
theorem GetIndex_ge_len_or_not_array (y : Yaml) (i : Int)
    (h : (∃ a, y.data = Value.array a ∧ (len a : Int) ≤ i) ∨ ∀ a, y.data ≠ Value.array a) :
    y.GetIndex i = Except.ok sentinel := by
  obtain ⟨d⟩ := y
  rcases h with ⟨a, ha, hle⟩ | hno
  · simp only at ha
    subst ha
    have h1 : ¬ ((len a : Int) > i) := by omega
    simp [Yaml.GetIndex, Yaml.Array, h1, sentinel]
  · cases d with
    | array a => exact absurd rfl (hno a)
    | _ => rfl

/-- C8, evaluated at index `-1` on the empty sequence: the claim takes in every
index on an empty sequence, but there the guard `len(a) > index` is `0 > -1`,
the element access `a[-1]` panics with an index out of range, and no Node is
returned; the same on the nil slice and at every negative index on an empty
sequence.  On the rest of the claim the code does as claimed: with `i >= n` on
a sequence of length `n`, or on a Node that wraps no sequence, `GetIndex(i)`
returns the sentinel empty Node without panic. -/
theorem getIndex_empty_negative_panics :
    (Yaml.mk (Value.array (some []))).GetIndex (-1)
      = Except.error (Panic.indexOutOfRange (-1) 0) ∧
    (Yaml.mk (Value.array none)).GetIndex (-1)
      = Except.error (Panic.indexOutOfRange (-1) 0) ∧
    (∀ i : Int, i < 0 →
      (Yaml.mk (Value.array (some []))).GetIndex i
        = Except.error (Panic.indexOutOfRange i 0)) ∧
    (∀ (y : Yaml) (i : Int),
      ((∃ a, y.data = Value.array a ∧ (len a : Int) ≤ i) ∨ ∀ a, y.data ≠ Value.array a) →
      y.GetIndex i = Except.ok sentinel) ∧
    (Yaml.mk (Value.array (some [Value.int 111, Value.int 222, Value.int 333]))).GetIndex 3
      = Except.ok sentinel ∧
    (Yaml.mk (Value.array (some []))).GetIndex 0 = Except.ok sentinel ∧
    (Yaml.mk (Value.int 99)).GetIndex (-1) = Except.ok sentinel ∧
    sentinel.GetIndex (-1) = Except.ok sentinel :=
  ⟨GetIndex_neg (some []) (-1) (by decide),
   GetIndex_neg none (-1) (by decide),
   fun i hi => GetIndex_neg (some []) i hi,
   GetIndex_ge_len_or_not_array,
   GetIndex_ge_len_or_not_array _ 3 (Or.inl ⟨_, rfl, by decide⟩),
   GetIndex_ge_len_or_not_array _ 0 (Or.inl ⟨_, rfl, by decide⟩),
   GetIndex_ge_len_or_not_array ⟨Value.int 99⟩ (-1) (Or.inr (fun _ h => by cases h)),
   GetIndex_ge_len_or_not_array sentinel (-1) (Or.inr (fun _ h => by cases h))⟩

/-! ## Typed extraction -/

/-- C9: the scalar extractors use exact type identity.  `String()` returns
`(s, nil)` exactly when the wrapped value is the string `s`, `Int()` returns
`(n, nil)` exactly when it is the integer `n`, `Bool()` returns `(b, nil)`
exactly when it is the boolean `b`.  A Node wrapping `99` fails `String()` and
`Bool()` and succeeds on `Int()`; one wrapping `true` fails `Int()` and
`String()` and succeeds on `Bool()`; a floating-point value fails `Int()`; the
string `"true"` fails `Bool()`. -/
theorem scalar_extractors_exact (y : Yaml) :
    (∀ s, y.String = (s, none) ↔ y.data = Value.str s) ∧
    (∀ n, y.Int = (n, none) ↔ y.data = Value.int n) ∧
    (∀ b, y.Bool = (b, none) ↔ y.data = Value.bool b) ∧
    (Yaml.mk (Value.int 99)).String = ("", some "type assertion to string failed") ∧
    (Yaml.mk (Value.int 99)).Bool = (false, some "type assertion to bool failed") ∧
    (Yaml.mk (Value.int 99)).Int = (99, none) ∧
    (Yaml.mk (Value.bool true)).Int = (0, some "type assertion to int failed") ∧
    (Yaml.mk (Value.bool true)).String = ("", some "type assertion to string failed") ∧
    (Yaml.mk (Value.bool true)).Bool = (true, none) ∧
    (∀ bits, (Yaml.mk (Value.float bits)).Int = (0, some "type assertion to int failed")) ∧
    (Yaml.mk (Value.str "true")).Bool = (false, some "type assertion to bool failed") := by
  obtain ⟨d⟩ := y
  refine ⟨?_, ?_, ?_, rfl, rfl, rfl, rfl, rfl, rfl, fun _ => rfl, rfl⟩
  · intro s
    cases d <;> simp [Yaml.String]
  · intro n
    cases d <;> simp [Yaml.Int]
  · intro b
    cases d <;> simp [Yaml.Bool]

/-- C10: on a Node wrapping nil, which is both the absent sentinel and the
document's null, all five extractors fail: `String()` returns `("", err)`,
`Int()` `(0, err)`, `Bool()` `(false, err)`, `Map()` `(nil, err)` and `Array()`
`(nil, err)`.  On every Node an extractor that returns a non-nil error returns
the zero value of its type with it.  On the document
`name: smallfish, age: 99, bool: true`, `Get("age").Array()` returns
`(nil, err)`. -/
theorem extractors_fail_with_zero (y : Yaml) :
    (y.data = Value.nil →
      y.String = ("", some "type assertion to string failed") ∧
      y.Int = (0, some "type assertion to int failed") ∧
      y.Bool = (false, some "type assertion to bool failed") ∧
      y.Map = (none, some "type assertion to map[interface]interface\x7b\x7d failed") ∧
      y.Array = (none, some "type assertion to []interface\x7b\x7d failed")) ∧
    (y.String.2 ≠ none → y.String.1 = "") ∧
    (y.Int.2 ≠ none → y.Int.1 = 0) ∧
    (y.Bool.2 ≠ none → y.Bool.1 = false) ∧
    (y.Map.2 ≠ none → y.Map.1 = none) ∧
    (y.Array.2 ≠ none → y.Array.1 = none) ∧
    ((Yaml.mk (Value.mapSlice docFlat)).Get "age").Array
      = (none, some "type assertion to []interface\x7b\x7d failed") := by
  obtain ⟨d⟩ := y
  refine ⟨?_, ?_, ?_, ?_, ?_, ?_, rfl⟩
  · intro h
    simp only at h
    subst h
    exact ⟨rfl, rfl, rfl, rfl, rfl⟩
  · cases d <;> simp [Yaml.String]
  · cases d <;> simp [Yaml.Int]
  · cases d <;> simp [Yaml.Bool]
  · cases d <;> simp [Yaml.Map]
  · cases d <;> simp [Yaml.Array]

/-- C10 at the sentinel and on a Node wrapping the integer `99`. -/
theorem extractors_fail_with_zero_witness :
    sentinel.String = ("", some "type assertion to string failed") ∧
    sentinel.Int = (0, some "type assertion to int failed") ∧
    sentinel.Bool = (false, some "type assertion to bool failed") ∧
    sentinel.Map = (none, some "type assertion to map[interface]interface\x7b\x7d failed") ∧
    sentinel.Array = (none, some "type assertion to []interface\x7b\x7d failed") ∧
    (Yaml.mk (Value.int 99)).Array.1 = none :=
  ⟨((extractors_fail_with_zero sentinel).1 rfl).1,
   ((extractors_fail_with_zero sentinel).1 rfl).2.1,
   ((extractors_fail_with_zero sentinel).1 rfl).2.2.1,
   ((extractors_fail_with_zero sentinel).1 rfl).2.2.2.1,
   ((extractors_fail_with_zero sentinel).1 rfl).2.2.2.2,
   (extractors_fail_with_zero ⟨Value.int 99⟩).2.2.2.2.2.1 (by simp [Yaml.Array])⟩

/-! ## The root mapping, null and absence, construction -/

/-- The internal test `Map()` fails on every Node wrapping a `yaml.MapSlice`. -/
theorem Map_mapSlice (items : List (Value × Value)) :
    (Yaml.mk (Value.mapSlice items)).Map
      = (none, some "type assertion to map[interface]interface\x7b\x7d failed") := rfl

/-- C11, evaluated on the root of `name: smallfish, age: 99, bool: true`:
whenever the parser succeeds the root Node wraps the `yaml.MapSlice` it filled,
and on every Node wrapping a `yaml.MapSlice` the method `Map()` returns the nil
map with an error, so no entry and no key order is returned. -/
theorem map_on_root_fails :
    (∀ (unmarshal : List Nat → Except String (List (Value × Value))) (body : List Nat)
      (items : List (Value × Value)), unmarshal body = Except.ok items →
      (NewYaml unmarshal body).1.map Yaml.Map
        = some (none, some "type assertion to map[interface]interface\x7b\x7d failed")) ∧
    (∀ items : List (Value × Value), (Yaml.mk (Value.mapSlice items)).Map
      = (none, some "type assertion to map[interface]interface\x7b\x7d failed")) ∧
    (NewYaml (parserOf docFlat) []).1.map Yaml.Map
      = some (none, some "type assertion to map[interface]interface\x7b\x7d failed") := by
  refine ⟨?_, Map_mapSlice, rfl⟩
  intro unmarshal body items h
  simp [NewYaml, h, Yaml.Map]

/-- C12 refuted at a concrete mapping: in the map `k: null` the key `k` is
present with a nil value and the key `missing` is absent, and `Get("k")` and
`Get("missing")` are the same Node, wrapping nil; likewise on the
`yaml.MapSlice` with the same entry. -/
theorem null_and_absent_coincide :
    (Yaml.mk (Value.map (some [(Value.str "k", Value.nil)]))).Get "k"
      = (Yaml.mk (Value.map (some [(Value.str "k", Value.nil)]))).Get "missing" ∧
    (Yaml.mk (Value.mapSlice [(Value.str "k", Value.nil)])).Get "k"
      = (Yaml.mk (Value.mapSlice [(Value.str "k", Value.nil)])).Get "missing" := by
  constructor
  · simp [Yaml.Get, Yaml.Map, mapaccess, lookupStr]
  · rfl

/-- C12 as amended: on a Node wrapping a mapping with unique keys in which `k`
is present with a nil value and `k2` is absent, `Get(k)` and `Get(k2)` are the
same Node, the one wrapping nil, so every extractor and every descent returns
the same result on both. -/
theorem get_null_eq_get_absent (y : Yaml) (es : List (Value × Value)) (k k2 : String)
    (hes : y.data.entries = some es) (hu : uniqueStrKeys es)
    (hk : (Value.str k, Value.nil) ∈ es) (hk2 : ∀ x, (Value.str k2, x) ∉ es) :
    y.Get k = y.Get k2 ∧ y.Get k = sentinel := by
  have habs : y.Get k2 = sentinel := by
    apply Get_of_not_hasKey
    rintro ⟨es2, x, hes2, hx⟩
    rw [hes] at hes2
    cases hes2
    exact hk2 x hx
  have hnull : y.Get k = sentinel := by
    obtain ⟨d⟩ := y
    cases d with
    | map m =>
      cases m with
      | none => rfl
      | some m =>
        simp only [Value.entries, Option.some.injEq] at hes
        subst hes
        exact Get_map_of_mem m k Value.nil hu hk
    | _ => rfl
  exact ⟨hnull.trans habs.symm, hnull⟩

/-- C12 as amended, on the map `k: null` with `missing` absent. -/
theorem get_null_eq_get_absent_witness :
    (Yaml.mk (Value.map (some [(Value.str "k", Value.nil)]))).Get "k"
      = (Yaml.mk (Value.map (some [(Value.str "k", Value.nil)]))).Get "missing" ∧
    (Yaml.mk (Value.map (some [(Value.str "k", Value.nil)]))).Get "k" = sentinel :=
  get_null_eq_get_absent ⟨Value.map (some [(Value.str "k", Value.nil)])⟩
    [(Value.str "k", Value.nil)] "k" "missing" rfl (by simp [uniqueStrKeys])
    (by simp) (by simp)

/-- C13: for every parser and input, `NewYaml` returns a non-nil error exactly
when the parser fails; then the Node is the nil pointer and the message is
`unmarshal []byte to yaml failed: ` followed by the parser's message; when the
parser succeeds the error is nil and the Node is non-nil and wraps the parsed
value. -/
theorem newYaml_error_iff_parser_fails
    (unmarshal : List Nat → Except String (List (Value × Value))) (body : List Nat) :
    ((NewYaml unmarshal body).2 ≠ none ↔ ∃ msg, unmarshal body = Except.error msg) ∧
    (∀ msg, unmarshal body = Except.error msg →
      NewYaml unmarshal body = (none, some ("unmarshal []byte to yaml failed: " ++ msg))) ∧
    (∀ val, unmarshal body = Except.ok val →
      NewYaml unmarshal body = (some ⟨Value.mapSlice val⟩, none)) := by
  cases h : unmarshal body with
  | error msg => simp [NewYaml, h]
  | ok val => simp [NewYaml, h]

/-! ## Sequences, exclusivity, composition, key matching -/

theorem GetIndex_array_some (xs : List Value) (i : Int) (h0 : 0 ≤ i)
    (hlt : i < (xs.length : Int)) (h : i.toNat < xs.length) :
    (Yaml.mk (Value.array (some xs))).GetIndex i = Except.ok ⟨xs.get ⟨i.toNat, h⟩⟩ := by
  simp [Yaml.GetIndex, Yaml.Array, sliceIndex, len, h0, hlt, List.getD_eq_getElem?_getD,
    List.getElem?_eq_getElem h]

/-- C14: `Array()` returns `(a, nil)` exactly when the wrapped value is the
sequence `a`, so the result has the elements of the wrapped sequence in their
order; at every index `0 <= i < len(a)` of the returned sequence `GetIndex(i)`
wraps its element at `i`; and on every value that is no sequence `Array()`
returns the nil slice with an error. -/
theorem array_returns_wrapped_sequence (y : Yaml) :
    (∀ a, y.Array = (a, none) ↔ y.data = Value.array a) ∧
    (∀ (xs : List Value) (i : Int), y.Array = (some xs, none) → 0 ≤ i →
      i < (xs.length : Int) →
      ∃ h : i.toNat < xs.length, y.GetIndex i = Except.ok ⟨xs.get ⟨i.toNat, h⟩⟩) ∧
    ((∀ a, y.data ≠ Value.array a) →
      y.Array = (none, some "type assertion to []interface\x7b\x7d failed")) := by
  obtain ⟨d⟩ := y
  have hiff : ∀ a, (Yaml.mk d).Array = (a, none) ↔ d = Value.array a := by
    intro a
    cases d <;> simp [Yaml.Array]
  refine ⟨hiff, ?_, ?_⟩
  · intro xs i hxs h0 hlt
    have hd : d = Value.array (some xs) := (hiff (some xs)).mp hxs
    subst hd
    have h : i.toNat < xs.length := by omega
    exact ⟨h, GetIndex_array_some xs i h0 hlt h⟩
  · intro hno
    cases d with
    | array a => exact absurd rfl (hno a)
    | _ => rfl

/-- C14 on the sequence `[111, 222, 333]` and on the integer `99`. -/
theorem array_returns_wrapped_sequence_witness :
    (Yaml.mk (Value.array (some [Value.int 111, Value.int 222, Value.int 333]))).Array
      = (some [Value.int 111, Value.int 222, Value.int 333], none) ∧
    (Yaml.mk (Value.int 99)).Array
      = (none, some "type assertion to []interface\x7b\x7d failed") :=
  ⟨((array_returns_wrapped_sequence _).1 _).mpr rfl,
   (array_returns_wrapped_sequence ⟨Value.int 99⟩).2.2 (fun _ h => by cases h)⟩

/-- C15: on every Node at most one of `String()`, `Int()`, `Bool()`, `Map()` and
`Array()` returns a nil error, and on a Node wrapping nil or a floating-point
value none of them does. -/
theorem extractors_mutually_exclusive (y : Yaml) :
    ([y.String.2.isNone, y.Int.2.isNone, y.Bool.2.isNone, y.Map.2.isNone,
      y.Array.2.isNone].count true ≤ 1) ∧
    ((y.data = Value.nil ∨ ∃ bits, y.data = Value.float bits) →
      y.String.2 ≠ none ∧ y.Int.2 ≠ none ∧ y.Bool.2 ≠ none ∧ y.Map.2 ≠ none ∧
      y.Array.2 ≠ none) := by
  obtain ⟨d⟩ := y
  constructor
  · cases d <;> simp [Yaml.String, Yaml.Int, Yaml.Bool, Yaml.Map, Yaml.Array]
  · rintro (h | ⟨bits, h⟩) <;> simp only at h <;> subst h <;>
      simp [Yaml.String, Yaml.Int, Yaml.Bool, Yaml.Map, Yaml.Array]

/-- C15 at the sentinel and at a floating-point value. -/
theorem extractors_mutually_exclusive_witness :
    (sentinel.String.2 ≠ none ∧ sentinel.Int.2 ≠ none ∧ sentinel.Bool.2 ≠ none ∧
      sentinel.Map.2 ≠ none ∧ sentinel.Array.2 ≠ none) ∧
    (Yaml.mk (Value.float 0)).Int.2 ≠ none :=
  ⟨(extractors_mutually_exclusive sentinel).2 (Or.inl rfl),
   ((extractors_mutually_exclusive ⟨Value.float 0⟩).2 (Or.inr ⟨0, rfl⟩)).2.1⟩

/-- C16: `GetPath` over a concatenation `p ++ q` is `GetPath` over `q` applied
to the result of `GetPath` over `p`, and `GetPath` over the single key `k` is
`Get(k)`. -/
theorem getPath_append_compose (y : Yaml) (p q : List String) (k : String) :
    y.GetPath (p ++ q) = (y.GetPath p).GetPath q ∧ y.GetPath [k] = y.Get k :=
  ⟨GetPath_append y p q, rfl⟩

/-- C17: on a Node wrapping a mapping none of whose keys is the string `k`,
`Get(k)` returns the sentinel empty Node; and whenever `Get(k)` is not the
sentinel, the Node wraps a map that has an entry whose key is the string `k` and
whose value is the one returned. -/
theorem get_matches_string_keys_only (y : Yaml) (k : String)
    (h : ∃ es, y.data.entries = some es ∧ ∀ e ∈ es, e.1 ≠ Value.str k) :
    y.Get k = sentinel ∧
    ∀ (z : Yaml) (k2 : String), z.Get k2 ≠ sentinel →
      ∃ m, z.data = Value.map (some m) ∧ (Value.str k2, (z.Get k2).data) ∈ m := by
  constructor
  · obtain ⟨es, hes, hkeys⟩ := h
    apply Get_of_not_hasKey
    rintro ⟨es2, x, hes2, hx⟩
    rw [hes] at hes2
    cases hes2
    exact hkeys _ hx rfl
  · intro z k2 hne
    by_cases hm : ∃ m, z.data = Value.map (some m)
    · obtain ⟨m, hm⟩ := hm
      obtain ⟨d⟩ := z
      simp only at hm
      subst hm
      refine ⟨m, rfl, ?_⟩
      rw [Get_map_some] at hne ⊢
      cases hl : lookupStr m k2 with
      | none => rw [hl] at hne; exact absurd rfl hne
      | some v => exact lookupStr_mem m k2 v hl
    · exact absurd (Get_of_not_map z k2 (fun m hm2 => hm ⟨m, hm2⟩)) hne

/-- C17 on mappings whose only key is the integer `1` or the boolean `true`,
queried with the strings `"1"` and `"true"`. -/
theorem get_matches_string_keys_only_witness :
    (Yaml.mk (Value.map (some [(Value.int 1, Value.str "one")]))).Get "1" = sentinel ∧
    (Yaml.mk (Value.map (some [(Value.bool true, Value.str "yes")]))).Get "true" = sentinel ∧
    (Yaml.mk (Value.mapSlice [(Value.int 1, Value.str "one")])).Get "1" = sentinel :=
  ⟨(get_matches_string_keys_only ⟨Value.map (some [(Value.int 1, Value.str "one")])⟩ "1"
      ⟨_, rfl, by simp⟩).1,
   (get_matches_string_keys_only ⟨Value.map (some [(Value.bool true, Value.str "yes")])⟩
      "true" ⟨_, rfl, by simp⟩).1,
   (get_matches_string_keys_only ⟨Value.mapSlice [(Value.int 1, Value.str "one")]⟩ "1"
      ⟨_, rfl, by simp⟩).1⟩

end simpleyaml
